import Mathlib

/-!
Shallow embedding of the `auto-discovery` Rust library (service discovery over
mDNS / DNS-SD / SSDP), covering the parts needed to settle the claims:
`ServiceType` parsing and display (src/types.rs), `ServiceInfo` construction
(src/service.rs), the service registry (src/registry.rs), the SSDP engine's
parser and discovery/registration state (src/protocols/upnp.rs), the mDNS
engine's discovery merge-in (src/protocols/mdns.rs), the protocol manager's
dispatch (src/protocols/mod.rs) and configuration validation (src/config.rs).

Strings are modelled as `List Char` (`Str`); Rust's `str::split('.')` is
modelled by `splitSep`, `str::trim` by `trim` over ASCII whitespace, and
`String.lines()` output is taken as the input line list of the SSDP parsers.
`Instant` timestamps are modelled as `Nat` nanosecond counts with the current
time passed explicitly; `std::time::Duration` is a pair of seconds and
nanoseconds ordered lexicographically, as in Rust. UUIDs are modelled as `Nat`
values supplied by the caller (Rust generates fresh random v4 UUIDs).
Asynchronous I/O (sockets, the mDNS daemon) is modelled by passing the wire
responses / browse results as explicit inputs.
-/

namespace AutoDiscovery

/-- Strings are modelled as lists of characters. -/
abbrev Str := List Char

/-! ### Duration (std::time::Duration) -/

/-- Model of `std::time::Duration`: seconds and sub-second nanoseconds. -/
structure Duration where
  secs : Nat
  nanos : Nat
deriving DecidableEq, Repr

namespace Duration

/-- `Duration::from_secs`. -/
def fromSecs (n : Nat) : Duration := ⟨n, 0⟩

/-- `Duration::from_millis`. -/
def fromMillis (n : Nat) : Duration := ⟨n / 1000, n % 1000 * 1000000⟩

/-- `Duration::as_secs`. -/
def asSecs (d : Duration) : Nat := d.secs

/-- `Duration::is_zero`. -/
def isZero (d : Duration) : Bool := d.secs = 0 && d.nanos = 0

/-- Strict order on durations: lexicographic on (secs, nanos), as in Rust's
derived `Ord` for `Duration`. -/
def blt (a b : Duration) : Bool := a.secs < b.secs || (a.secs = b.secs && a.nanos < b.nanos)

/-- `Ord::min` for durations: returns `self` when `self <= other`. -/
def minD (a b : Duration) : Duration := if blt b a then b else a

end Duration

/-- Elapsed time between a stored `Instant` timestamp and the current time
(both in nanoseconds), as a `Duration` (`Instant::elapsed`). -/
def elapsedDur (now ts : Nat) : Duration :=
  ⟨(now - ts) / 1000000000, (now - ts) % 1000000000⟩

/-! ### ProtocolType (src/types.rs) -/

/-- Protocol tag enum from src/types.rs: `Mdns`, `DnsSd`, `Upnp`.
The `#[default]` attribute in the source marks `Mdns`. -/
inductive ProtocolType
  | Mdns
  | DnsSd
  | Upnp
deriving DecidableEq, Repr, Fintype

/-- Default protocol tag (`#[default]` on `Mdns` in src/types.rs). -/
def ProtocolType.default : ProtocolType := .Mdns

instance : Inhabited ProtocolType := ⟨ProtocolType.default⟩

/-- Debug rendering of a protocol tag (`{:?}` in Rust format strings). -/
def ProtocolType.debugStr : ProtocolType → Str
  | .Mdns => ['M', 'd', 'n', 's']
  | .DnsSd => ['D', 'n', 's', 'S', 'd']
  | .Upnp => ['U', 'p', 'n', 'p']

/-! ### Splitting and joining on a separator (str::split / slice::join) -/

/-- Model of Rust's `str::split(sep)` collected to a list: always returns at
least one (possibly empty) piece, with separators dropped. -/
def splitSep (sep : Char) : Str → List Str
  | [] => [[]]
  | c :: cs =>
    if c = sep then [] :: splitSep sep cs
    else (splitSep sep cs).modifyHead (c :: ·)

/-- Model of `[&str]::join(sep)` for a one-character separator. -/
def joinSep (sep : Char) : List Str → Str
  | [] => []
  | [p] => p
  | p :: q :: rest => p ++ sep :: joinSep sep (q :: rest)

/-! ### ServiceType (src/types.rs) -/

/-- The literal prefix `urn:` recognized by `ServiceType::new`. -/
def urnTag : Str := ['u', 'r', 'n', ':']

/-- Service type value (src/types.rs `ServiceType`): instance label, protocol
label, optional domain. -/
structure ServiceType where
  service_name : Str
  protocol : Str
  domain : Option Str
deriving DecidableEq, Repr

/-- `ServiceType::new` (src/types.rs lines 26..82): rejects the empty string;
stores `urn:`-prefixed strings whole with empty protocol; otherwise splits on
`.`, requires at least two pieces with the second starting with `_`, prepends
`.` to the protocol piece, joins the remaining pieces as the domain, and adds a
leading `_` to the instance label if absent. Errors are collapsed to `none`. -/
def ServiceType.new (s : Str) : Option ServiceType :=
  if s.isEmpty then none
  else if urnTag.isPrefixOf s then some ⟨s, [], none⟩
  else
    match splitSep '.' s with
    | p0 :: p1 :: rest =>
      if p1.head? = some '_' then
        some ⟨if p0.head? = some '_' then p0 else '_' :: p0,
              '.' :: p1,
              if rest.isEmpty then none else some (joinSep '.' rest)⟩
      else none
    | _ => none

/-- The `fmt::Display` implementation for `ServiceType` (src/types.rs lines
149..161): instance label, protocol, and dot-prefixed domain when present. -/
def ServiceType.toString (t : ServiceType) : Str :=
  match t.domain with
  | some d => t.service_name ++ t.protocol ++ '.' :: d
  | none => t.service_name ++ t.protocol

/-! ### IP addresses and ServiceInfo (src/service.rs) -/

/-- Simplified model of `std::net::IpAddr`. -/
inductive IpAddr
  | v4 (a b c d : Nat)
  | v6 (segs : List Nat)
deriving DecidableEq, Repr

/-- `Ipv4Addr::LOCALHOST`. -/
def IpAddr.localhost : IpAddr := .v4 127 0 0 1

/-- A UDP datagram source address (`std::net::SocketAddr`). -/
structure SocketAddr where
  ip : IpAddr
  port : Nat
deriving DecidableEq, Repr

/-- Service descriptor (src/service.rs `ServiceInfo`). The `discovered_at`,
`ttl`, `verified` and `interface` fields play no role in the claims under
study and are fixed by `ServiceInfo::new` anyway; they are omitted. The UUID
is modelled as a `Nat`. -/
structure ServiceInfo where
  id : Nat
  name : Str
  service_type : ServiceType
  address : IpAddr
  port : Nat
  attributes : List (Str × Str)
  protocol_type : ProtocolType
deriving DecidableEq, Repr

/-- `ServiceInfo::new` (src/service.rs lines 42..71): parses the service type
(propagating failure), and fills defaults: localhost address, default protocol
type `Mdns`, and the given attribute pairs. The fresh v4 UUID is modelled as
an explicit `uuid` argument. -/
def ServiceInfo.new (uuid : Nat) (name : Str) (service_type : Str) (port : Nat)
    (attributes : List (Str × Str)) : Option ServiceInfo :=
  (ServiceType.new service_type).map fun t =>
    { id := uuid
      name := name
      service_type := t
      address := IpAddr.localhost
      port := port
      attributes := attributes
      protocol_type := ProtocolType.default }

/-! ### Error taxonomy (src/error.rs) -/

/-- Error kinds (src/error.rs `DiscoveryError`), with message payloads. The
`Io` variant's payload is collapsed to a message string. -/
inductive DiscoveryError
  | Configuration (msg : Str)
  | InvalidData (msg : Str)
  | InvalidServiceInfo (field reason : Str)
  | ServiceNotFound (msg : Str)
  | DnsResolution (msg : Str)
  | Mdns (msg : Str)
  | Upnp (msg : Str)
  | DnsSd (msg : Str)
  | Network (msg : Str)
  | Timeout (msg : Str)
  | Verification (msg : Str)
  | Protocol (msg : Str)
  | IoError (msg : Str)
  | Security (msg : Str)
  | Other (msg : Str)
deriving DecidableEq, Repr

/-! ### Association-list model of HashMap -/

/-- Lookup in an association list (model of `HashMap::get`). -/
def mapLookup {κ β : Type} [DecidableEq κ] (k : κ) : List (κ × β) → Option β
  | [] => none
  | p :: t => if p.1 = k then some p.2 else mapLookup k t

/-- Insert-or-replace in an association list (model of `HashMap::insert`). -/
def mapInsert {κ β : Type} [DecidableEq κ] (k : κ) (v : β) : List (κ × β) → List (κ × β)
  | [] => [(k, v)]
  | p :: t => if p.1 = k then (k, v) :: t else p :: mapInsert k v t

/-- Remove a key from an association list (model of `HashMap::remove`). -/
def mapRemove {κ β : Type} [DecidableEq κ] (k : κ) : List (κ × β) → List (κ × β)
  | [] => []
  | p :: t => if p.1 = k then t else p :: mapRemove k t

/-- Key-membership test (model of `HashMap::contains_key`). -/
def containsKey {κ β : Type} [DecidableEq κ] (k : κ) (m : List (κ × β)) : Bool :=
  (mapLookup k m).isSome

/-! ### Service Registry (src/registry.rs) -/

/-- Registry entry (src/registry.rs `ServiceEntry`): the service plus the
`Instant` it was recorded (nanoseconds), locality flag, optional TTL, and the
recording protocol. -/
structure ServiceEntry where
  service : ServiceInfo
  timestamp : Nat
  is_local : Bool
  ttl : Option Duration
  protocol : ProtocolType
deriving DecidableEq, Repr

/-- `ServiceEntry::new_local`: local entries never carry a TTL. -/
def ServiceEntry.new_local (now : Nat) (service : ServiceInfo)
    (protocol : ProtocolType) : ServiceEntry :=
  ⟨service, now, true, none, protocol⟩

/-- `ServiceEntry::new_discovered`. -/
def ServiceEntry.new_discovered (now : Nat) (service : ServiceInfo)
    (protocol : ProtocolType) (ttl : Option Duration) : ServiceEntry :=
  ⟨service, now, false, ttl, protocol⟩

/-- `ServiceEntry::is_expired`: true when a TTL is set and the elapsed time
since `timestamp` strictly exceeds it. -/
def ServiceEntry.is_expired (now : Nat) (e : ServiceEntry) : Bool :=
  match e.ttl with
  | some ttl => Duration.blt ttl (elapsedDur now e.timestamp)
  | none => false

/-- `ServiceEntry::service_id`: the composite key `name:type:port`. -/
def ServiceEntry.service_id (e : ServiceEntry) : Str :=
  e.service.name ++ ':' :: e.service.service_type.toString ++
    ':' :: Nat.toDigits 10 e.service.port

/-- Substring test, model of Rust `str::contains(&str)`. -/
def strContains : Str → Str → Bool
  | [], needle => needle.isEmpty
  | c :: t, needle => needle.isPrefixOf (c :: t) || strContains t needle

/-- Query filter (src/registry.rs `ServiceFilter`). -/
structure ServiceFilter where
  service_types : Option (List ServiceType) := none
  protocols : Option (List ProtocolType) := none
  name_contains : Option Str := none
  local_only : Bool := false
  discovered_only : Bool := false
  max_age : Option Duration := none
deriving Repr

/-- `ServiceFilter::matches` (src/registry.rs lines 135..179): expired entries
are rejected first, then each optional predicate is applied in turn. -/
def ServiceFilter.matches (f : ServiceFilter) (now : Nat) (e : ServiceEntry) : Bool :=
  if ServiceEntry.is_expired now e then false
  else if (match f.max_age with
           | some ma => Duration.blt ma (elapsedDur now e.timestamp)
           | none => false) then false
  else if f.local_only && !e.is_local then false
  else if f.discovered_only && e.is_local then false
  else if (match f.service_types with
           | some ts => !(ts.any fun t => t.toString == e.service.service_type.toString)
           | none => false) then false
  else if (match f.protocols with
           | some ps => !(ps.contains e.protocol)
           | none => false) then false
  else if (match f.name_contains with
           | some n => !(strContains e.service.name n)
           | none => false) then false
  else true

/-- The registry's service map: composite key to entry. -/
abbrev RegMap := List (Str × ServiceEntry)

/-- Registry state (src/registry.rs `ServiceRegistry`). -/
structure ServiceRegistry where
  services : RegMap
  default_ttl : Duration
  max_services : Nat
deriving DecidableEq, Repr

namespace ServiceRegistry

/-- `ServiceRegistry::new`: default TTL 300 s, capacity 1000. -/
def new : ServiceRegistry := ⟨[], Duration.fromSecs 300, 1000⟩

/-- `ServiceRegistry::with_settings`. -/
def with_settings (default_ttl : Duration) (max_services : Nat) : ServiceRegistry :=
  ⟨[], default_ttl, max_services⟩

/-- `ServiceRegistry::register_local_service`: unconditional insert-or-replace
under the composite key (no capacity check in the source). -/
def register_local_service (now : Nat) (service : ServiceInfo)
    (protocol : ProtocolType) (reg : ServiceRegistry) : ServiceRegistry :=
  let entry := ServiceEntry.new_local now service protocol
  { reg with services := mapInsert entry.service_id entry reg.services }

/-- `ServiceRegistry::unregister_local_service`: removes the entry under the
key if present, else fails with `ServiceNotFound`. The entry's `is_local` flag
is not consulted. -/
def unregister_local_service (service_id : Str) (reg : ServiceRegistry) :
    Except DiscoveryError ServiceRegistry :=
  if containsKey service_id reg.services then
    .ok { reg with services := mapRemove service_id reg.services }
  else
    .error (.ServiceNotFound service_id)

/-- `ServiceRegistry::find_oldest_expired`: among expired entries, the key of
the one with minimal timestamp (first minimal under iteration order). -/
def find_oldest_expired (now : Nat) (m : RegMap) : Option Str :=
  ((m.filter fun p => ServiceEntry.is_expired now p.2).foldl
    (fun acc p =>
      match acc with
      | none => some p
      | some q => if p.2.timestamp < q.2.timestamp then some p else some q)
    none).map (·.1)

/-- `ServiceRegistry::add_discovered_service` (src/registry.rs lines 235..256):
fills the TTL default, and at capacity evicts the oldest expired entry or
fails with a `Configuration` error. -/
def add_discovered_service (now : Nat) (service : ServiceInfo)
    (protocol : ProtocolType) (ttl : Option Duration) (reg : ServiceRegistry) :
    Except DiscoveryError ServiceRegistry :=
  let t := ttl.getD reg.default_ttl
  let entry := ServiceEntry.new_discovered now service protocol (some t)
  let sid := entry.service_id
  if reg.services.length ≥ reg.max_services then
    match find_oldest_expired now reg.services with
    | some oldest =>
        .ok { reg with services := mapInsert sid entry (mapRemove oldest reg.services) }
    | none => .error (.Configuration "Service registry at capacity".toList)
  else
    .ok { reg with services := mapInsert sid entry reg.services }

/-- `ServiceRegistry::find_services`: filter entries, project the services. -/
def find_services (now : Nat) (f : ServiceFilter) (reg : ServiceRegistry) :
    List ServiceInfo :=
  (reg.services.filter fun p => f.matches now p.2).map fun p => p.2.service

/-- The filter built by `ServiceRegistry::get_local_services`. -/
def localOnlyFilter : ServiceFilter := { local_only := true }

/-- `ServiceRegistry::get_local_services`. -/
def get_local_services (now : Nat) (reg : ServiceRegistry) : List ServiceInfo :=
  find_services now localOnlyFilter reg

/-- `ServiceRegistry::cleanup_expired`: retain the non-expired entries and
report how many were dropped. -/
def cleanup_expired (now : Nat) (reg : ServiceRegistry) : ServiceRegistry × Nat :=
  let retained := reg.services.filter fun p => !(ServiceEntry.is_expired now p.2)
  ({ reg with services := retained }, reg.services.length - retained.length)

end ServiceRegistry

/-! ### SSDP engine (src/protocols/upnp.rs) -/

/-- ASCII whitespace recognized by the `trim` model. -/
def isWs (c : Char) : Bool := c = ' ' || c = '\t' || c = '\n' || c = '\r'

/-- Model of `str::trim`: drop whitespace from both ends. -/
def trimStr (l : Str) : Str := ((l.dropWhile isWs).reverse.dropWhile isWs).reverse

/-- Model of `str::strip_prefix`: the remainder when `pre` is a literal
(case-sensitive) prefix of `l`. -/
def dropPre (pre l : Str) : Option Str :=
  if pre.isPrefixOf l then some (l.drop pre.length) else none

/-- The literal header prefixes tested by the SSDP parsers. -/
def stHdr : Str := ['S', 'T', ':']

/-- The literal `LOCATION:` header prefix. -/
def locationHdr : Str := ['L', 'O', 'C', 'A', 'T', 'I', 'O', 'N', ':']

/-- The literal `USN:` header prefix. -/
def usnHdr : Str := ['U', 'S', 'N', ':']

/-- `SsdpProtocol::parse_search_target` (src/protocols/upnp.rs lines 114..122):
return the trimmed value after the first line starting with `ST:`, or the
default target `ssdp:all` when no line matches. The message is given as its
line list (`str::lines`). -/
def parse_search_target : List Str → Str
  | [] => "ssdp:all".toList
  | line :: rest =>
    match dropPre stHdr line with
    | some stripped => trimStr stripped
    | none => parse_search_target rest

/-- The header scan of `parse_service_from_response`: walk the lines updating
the `location` and `usn` options (an `else if`, so a `LOCATION:` line is not
also tested for `USN:`; the last matching line wins). -/
def scanResponse : List Str → Option Str × Option Str → Option Str × Option Str
  | [], acc => acc
  | line :: rest, acc =>
    match dropPre locationHdr line with
    | some v => scanResponse rest (some (trimStr v), acc.2)
    | none =>
      match dropPre usnHdr line with
      | some v => scanResponse rest (acc.1, some (trimStr v))
      | none => scanResponse rest acc

/-- The first piece of `usn.split("::")` (with `.next().unwrap_or`, which never
falls back since `split` always yields a first piece). -/
def usnServiceId : Str → Str
  | [] => []
  | ':' :: ':' :: _ => []
  | c :: cs => c :: usnServiceId cs

/-- `SsdpProtocol::parse_service_from_response` (src/protocols/upnp.rs lines
206..236): requires both `LOCATION:` and `USN:` lines, then builds a
`ServiceInfo` named by the USN's first `::` segment, typed `upnp._tcp`, at the
datagram's source port, with location/usn attributes, and overwrites the
address with the datagram's source IP. -/
def parse_service_from_response (uuid : Nat) (lines : List Str)
    (addr : SocketAddr) : Option ServiceInfo :=
  match scanResponse lines (none, none) with
  | (some location, some usn) =>
    match ServiceInfo.new uuid (usnServiceId usn) "upnp._tcp".toList addr.port
        [("location".toList, location), ("usn".toList, usn)] with
    | some svc => some { svc with address := addr.ip }
    | none => none
  | _ => none

/-- The total timeout used by `SsdpProtocol::discover_services` (line 252):
`timeout.unwrap_or(10 s).min(30 s)`. -/
def ssdpTimeoutDuration (timeout : Option Duration) : Duration :=
  Duration.minD (timeout.getD (Duration.fromSecs 10)) (Duration.fromSecs 30)

/-- The MX header value transmitted by `send_search_request` for a discovery
call: the whole-second count of the capped total timeout. -/
def ssdpMx (timeout : Option Duration) : Nat := (ssdpTimeoutDuration timeout).asSecs

/-- The M-SEARCH request built by `SsdpProtocol::send_search_request`
(src/protocols/upnp.rs lines 159..176), as its line list. -/
def mSearchLines (service_type : Str) (timeout_secs : Nat) : List Str :=
  [ "M-SEARCH * HTTP/1.1".toList,
    "HOST: 239.255.255.250:1900".toList,
    "MAN: \"ssdp:discover\"".toList,
    "ST: ".toList ++ service_type,
    "MX: ".toList ++ Nat.toDigits 10 timeout_secs ]

/-- The SSDP engine's `registered_services` table, keyed by the service UUID. -/
abbrev SsdpServices := List (Nat × ServiceInfo)

/-- `SsdpProtocol::register_service` effect on `registered_services`: insert
under the service's UUID (the NOTIFY emission is network I/O). -/
def ssdpRegisterService (service : ServiceInfo) (m : SsdpServices) : SsdpServices :=
  mapInsert service.id service m

/-- `SsdpProtocol::discover_services` (src/protocols/upnp.rs lines 246..284):
the result is exactly the datagrams received on the search socket that parse
as responses, in arrival order. The wire traffic is modelled as the explicit
`responses` input (fresh UUID, line list, source address per datagram); the
engine state (its registry and `registered_services`) is not consulted. -/
def ssdpDiscoverServices (responses : List (Nat × List Str × SocketAddr))
    (service_types : List ServiceType) (timeout : Option Duration) : List ServiceInfo :=
  let _ := service_types
  let _ := ssdpTimeoutDuration timeout
  responses.filterMap fun r => parse_service_from_response r.1 r.2.1 r.2.2

/-! ### mDNS engine (src/protocols/mdns.rs) -/

/-- The service-type comparison used by the mDNS merge-in step (lines
173..181): equality of rendered strings, modulo appending `.local.` to either
side. -/
def typeMatchesLocal (st svcT : ServiceType) : Bool :=
  st.toString == svcT.toString ||
  (st.toString ++ ".local.".toList) == svcT.toString ||
  st.toString == (svcT.toString ++ ".local.".toList)

/-- The merge-in loop of `MdnsProtocol::discover_services` (lines 170..190):
append each local service that matches a requested type and whose UUID is not
already present in the accumulated results. -/
def mdnsMergeLocals (service_types : List ServiceType) :
    List ServiceInfo → List ServiceInfo → List ServiceInfo
  | acc, [] => acc
  | acc, svc :: rest =>
    if (service_types.any fun st => typeMatchesLocal st svc.service_type)
        && !(acc.any fun ds => ds.id == svc.id) then
      mdnsMergeLocals service_types (acc ++ [svc]) rest
    else
      mdnsMergeLocals service_types acc rest

/-- `MdnsProtocol::discover_services` (src/protocols/mdns.rs lines 112..193):
network browse results (external daemon I/O, passed as `netServices`) followed
by the registry merge-in of matching local services. -/
def mdnsDiscoverServices (netServices : List ServiceInfo)
    (service_types : List ServiceType) (now : Nat) (reg : ServiceRegistry) :
    List ServiceInfo :=
  mdnsMergeLocals service_types netServices (ServiceRegistry.get_local_services now reg)

/-- The registry effect of `MdnsProtocol::register_service` (line 226): on
successful daemon registration the service is stored as a local entry tagged
`Mdns`. -/
def mdnsRegisterService (now : Nat) (service : ServiceInfo) (reg : ServiceRegistry) :
    ServiceRegistry :=
  ServiceRegistry.register_local_service now service ProtocolType.Mdns reg

/-! ### Protocol manager (src/protocols/mod.rs) -/

/-- The manager's engine table: protocol tag to engine handle (engines are
abstracted to handles; their operations are modelled separately). -/
abbrev EngineTable := List (ProtocolType × Nat)

/-- `ProtocolManager::register_service` (src/protocols/mod.rs lines 118..129):
look up the engine whose type equals `service.protocol_type` and dispatch to
it, else fail with a `Protocol` error. -/
def managerRegisterService (protocols : EngineTable) (service : ServiceInfo) :
    Except DiscoveryError Nat :=
  match mapLookup service.protocol_type protocols with
  | some engine => .ok engine
  | none =>
      .error (.Protocol ("Protocol ".toList ++ service.protocol_type.debugStr ++
        " not available".toList))

/-! ### Configuration (src/config.rs) -/

/-- Discovery configuration (src/config.rs `DiscoveryConfig`); the
`interfaces` and `filter` fields are irrelevant to validation and omitted. -/
structure DiscoveryConfig where
  service_types : List ServiceType
  timeout : Option Duration
  verify_services : Bool
  max_services : Nat
  max_retries : Nat
  cache_duration : Duration
  rate_limit : Option Duration
  metrics_enabled : Bool
  enabled_protocols : List ProtocolType
  allow_cross_protocol : Bool
  enable_ipv4 : Bool
  enable_ipv6 : Bool
deriving DecidableEq, Repr

/-- The `Default` impl for `DiscoveryConfig` (src/config.rs lines 41..60). -/
def DiscoveryConfig.defaultConfig : DiscoveryConfig :=
  { service_types := []
    timeout := some (Duration.fromSecs 30)
    verify_services := false
    max_services := 1000
    max_retries := 3
    cache_duration := Duration.fromSecs 300
    rate_limit := some (Duration.fromSecs 1)
    metrics_enabled := false
    enabled_protocols := [ProtocolType.Mdns]
    allow_cross_protocol := false
    enable_ipv4 := true
    enable_ipv6 := false }

/-- `DiscoveryConfig::validate` (src/config.rs lines 253..274): rejects a set
timeout whose whole-second count is zero, requires one IP version enabled and
a non-empty protocol set; all failures are `Configuration` errors. -/
def DiscoveryConfig.validate (c : DiscoveryConfig) : Except DiscoveryError Unit :=
  if c.timeout.any fun t => t.asSecs == 0 then
    .error (.Configuration "Timeout must be greater than 0".toList)
  else if !c.enable_ipv4 && !c.enable_ipv6 then
    .error (.Configuration "Either IPv4 or IPv6 must be enabled".toList)
  else if c.enabled_protocols.isEmpty then
    .error (.Configuration "At least one protocol must be enabled".toList)
  else
    .ok ()

/-! ### Concrete sample inputs used by witnesses and counterexamples -/

/-- A concrete DNS-SD service type `_test._tcp` as parsed. -/
def sampleType1 : ServiceType := ⟨"_test".toList, "._tcp".toList, none⟩

/-- A concrete service used as register input. -/
def sampleSvc1 : ServiceInfo :=
  ⟨1, "test_service".toList, sampleType1, IpAddr.localhost, 8080, [], ProtocolType.Mdns⟩

/-- A second concrete service with a distinct composite key. -/
def sampleSvc2 : ServiceInfo :=
  ⟨2, "other".toList, ⟨"_other".toList, "._tcp".toList, none⟩, IpAddr.localhost, 9090, [],
    ProtocolType.Mdns⟩

/-- A concrete datagram source address. -/
def sampleAddr : SocketAddr := ⟨IpAddr.v4 192 0 2 7, 54321⟩

/-- A concrete well-formed SSDP M-SEARCH response body, as lines. -/
def ssdpRespLines : List Str :=
  ["LOCATION: http://192.0.2.1:8080/".toList, "USN: uuid:abc::upnp:rootdevice".toList]

/-- An empty registry with capacity 1. -/
def regCap1 : ServiceRegistry := ServiceRegistry.with_settings (Duration.fromSecs 300) 1

/-- The registry after one successful `add_discovered_service` on `regCap1`
(at its capacity of one entry). -/
def regCap1full : ServiceRegistry :=
  match ServiceRegistry.add_discovered_service 0 sampleSvc1 ProtocolType.Mdns none regCap1 with
  | .ok r => r
  | .error _ => regCap1

/-- A registry holding one discovered (non-local) entry under key `k1`. -/
def regDisc : ServiceRegistry :=
  { ServiceRegistry.new with
      services := [("k1".toList,
        ServiceEntry.new_discovered 0 sampleSvc1 ProtocolType.Upnp
          (some (Duration.fromSecs 60)))] }

/-- The default configuration with a positive sub-second timeout of 500 ms. -/
def cfg500 : DiscoveryConfig :=
  { DiscoveryConfig.defaultConfig with timeout := some (Duration.fromMillis 500) }

/-! ### Lemmas about splitting and joining -/

theorem splitSep_ne_nil (sep : Char) (l : Str) : splitSep sep l ≠ [] := by
  induction l with
  | nil => simp [splitSep]
  | cons c cs ih =>
    simp only [splitSep]
    split
    · simp
    · cases h : splitSep sep cs with
      | nil => exact absurd h ih
      | cons q t => simp

theorem not_mem_of_mem_splitSep (sep : Char) (l : Str) :
    ∀ p ∈ splitSep sep l, sep ∉ p := by
  induction l with
  | nil =>
    intro p hp
    simp only [splitSep, List.mem_singleton] at hp
    simp [hp]
  | cons c cs ih =>
    intro p hp
    simp only [splitSep] at hp
    by_cases hc : c = sep
    · rw [if_pos hc] at hp
      rcases List.mem_cons.mp hp with rfl | hp2
      · simp
      · exact ih p hp2
    · rw [if_neg hc] at hp
      cases h : splitSep sep cs with
      | nil => exact absurd h (splitSep_ne_nil sep cs)
      | cons q t =>
        rw [h] at hp
        simp only [List.modifyHead] at hp
        rcases List.mem_cons.mp hp with rfl | hp2
        · intro hm
          rcases List.mem_cons.mp hm with h1 | h2
          · exact hc h1.symm
          · exact ih q (h ▸ List.mem_cons_self q t) h2
        · exact ih p (h ▸ List.mem_cons.mpr (Or.inr hp2))

/-- Splitting a separator-free string yields that single piece. -/
theorem splitSep_single (sep : Char) (p : Str) (hp : sep ∉ p) :
    splitSep sep p = [p] := by
  induction p with
  | nil => rfl
  | cons c cs ih =>
    have hc : ¬(c = sep) := fun h => hp (h ▸ List.mem_cons_self c cs)
    have hcs := ih (fun h => hp (List.mem_cons.mpr (Or.inr h)))
    simp [splitSep, hcs, hc, List.modifyHead]

/-- Splitting a string of the form `p ++ sep :: rest` with `sep ∉ p` peels off
`p` as the first piece. -/
theorem splitSep_append (sep : Char) (p rest : Str) (hp : sep ∉ p) :
    splitSep sep (p ++ sep :: rest) = p :: splitSep sep rest := by
  induction p with
  | nil => simp [splitSep]
  | cons c cs ih =>
    have hc : ¬(c = sep) := fun h => hp (h ▸ List.mem_cons_self c cs)
    have hcs := ih (fun h => hp (List.mem_cons.mpr (Or.inr h)))
    simp [splitSep, hcs, hc, List.modifyHead]

theorem splitSep_joinSep (sep : Char) (parts : List Str)
    (hne : parts ≠ []) (hsep : ∀ p ∈ parts, sep ∉ p) :
    splitSep sep (joinSep sep parts) = parts := by
  induction parts with
  | nil => exact absurd rfl hne
  | cons p rest ih =>
    cases rest with
    | nil => exact splitSep_single sep p (hsep p (List.mem_cons_self p []))
    | cons q rest2 =>
      have hrest : splitSep sep (joinSep sep (q :: rest2)) = q :: rest2 :=
        ih (by simp) (fun x hx => hsep x (List.mem_cons.mpr (Or.inr hx)))
      simp only [joinSep]
      rw [splitSep_append sep p _ (hsep p (List.mem_cons_self p _)), hrest]

/-! ### Helper lemmas about ServiceType parsing -/

/-- Unfolded form of a successful non-URN parse. -/
theorem ServiceType.new_split (s : Str) (p0 p1 : Str) (rest : List Str)
    (hemp : s.isEmpty = false) (hurn : urnTag.isPrefixOf s = false)
    (hsp : splitSep '.' s = p0 :: p1 :: rest) (hp1 : p1.head? = some '_') :
    ServiceType.new s =
      some ⟨if p0.head? = some '_' then p0 else '_' :: p0, '.' :: p1,
            if rest.isEmpty then none else some (joinSep '.' rest)⟩ := by
  simp [ServiceType.new, hemp, hurn, hsp, hp1]

/-- A non-URN parse with fewer than two pieces fails. -/
theorem ServiceType.new_split_short (s : Str) (p0 : Str)
    (hemp : s.isEmpty = false) (hurn : urnTag.isPrefixOf s = false)
    (hsp : splitSep '.' s = [p0]) :
    ServiceType.new s = none := by
  simp [ServiceType.new, hemp, hurn, hsp]

/-- A non-URN parse whose second piece does not start with `_` fails. -/
theorem ServiceType.new_split_bad_proto (s : Str) (p0 p1 : Str) (rest : List Str)
    (hemp : s.isEmpty = false) (hurn : urnTag.isPrefixOf s = false)
    (hsp : splitSep '.' s = p0 :: p1 :: rest) (hp1 : p1.head? ≠ some '_') :
    ServiceType.new s = none := by
  simp [ServiceType.new, hemp, hurn, hsp, hp1]

/-- Rendering a parsed non-URN value is the dot-join of its pieces. -/
theorem ServiceType.toString_eq_joinSep (sn p1 : Str) (rest : List Str) :
    ServiceType.toString ⟨sn, '.' :: p1,
        if rest.isEmpty then none else some (joinSep '.' rest)⟩ =
      joinSep '.' (sn :: p1 :: rest) := by
  cases rest with
  | nil => simp [ServiceType.toString, joinSep]
  | cons r rs => simp [ServiceType.toString, joinSep]

/-- The URN tag is not a prefix of a string that does not start with `u`. -/
theorem urnTag_not_prefix_of (c : Char) (l : Str) (hc : c ≠ 'u') :
    urnTag.isPrefixOf (c :: l) = false := by
  simp only [urnTag, List.isPrefixOf, Bool.and_eq_false_iff]
  left
  simp [beq_iff_eq, Ne.symm hc]

/-- Claim C5: every string accepted by `ServiceType` parsing, when rendered
with the `Display` implementation and parsed again, yields the same structural
value (same `service_name`, `protocol` and `domain`); this covers both the
DNS-SD triple flavor and the `urn:` flavor. -/
theorem C5_service_type_roundtrip (s : Str) (v : ServiceType)
    (h : ServiceType.new s = some v) :
    ServiceType.new v.toString = some v := by
  by_cases hemp : s.isEmpty
  · rw [ServiceType.new, if_pos hemp] at h
    cases h
  · by_cases hurn : urnTag.isPrefixOf s
    · rw [ServiceType.new, if_neg hemp, if_pos hurn] at h
      injection h with h
      subst h
      have hts : ServiceType.toString ⟨s, [], none⟩ = s := by
        simp [ServiceType.toString]
      rw [hts, ServiceType.new, if_neg hemp, if_pos hurn]
    · cases hsp : splitSep '.' s with
      | nil => exact absurd hsp (splitSep_ne_nil '.' s)
      | cons p0 t1 =>
        cases t1 with
        | nil =>
          rw [ServiceType.new_split_short s p0 (by simpa using hemp)
            (Bool.eq_false_iff.mpr hurn) hsp] at h
          cases h
        | cons p1 rest =>
          by_cases hp1 : p1.head? = some '_'
          · rw [ServiceType.new_split s p0 p1 rest (by simpa using hemp)
              (Bool.eq_false_iff.mpr hurn) hsp hp1] at h
            injection h with h
            subst h
            set sn := if p0.head? = some '_' then p0 else '_' :: p0 with hsn
            -- pieces of the original split contain no dot
            have hd0 : '.' ∉ p0 :=
              not_mem_of_mem_splitSep '.' s p0 (hsp ▸ List.mem_cons_self p0 _)
            have hd1 : '.' ∉ p1 := by
              apply not_mem_of_mem_splitSep '.' s p1
              rw [hsp]
              exact List.mem_cons.mpr (Or.inr (List.mem_cons_self p1 rest))
            have hdrest : ∀ p ∈ rest, '.' ∉ p := by
              intro p hp
              apply not_mem_of_mem_splitSep '.' s p
              rw [hsp]
              exact List.mem_cons.mpr (Or.inr (List.mem_cons.mpr (Or.inr hp)))
            -- the instance label starts with an underscore and has no dot
            have hsnhead : sn.head? = some '_' := by
              rw [hsn]
              split
              · assumption
              · rfl
            have hdsn : '.' ∉ sn := by
              rw [hsn]
              split
              · exact hd0
              · intro hm
                rcases List.mem_cons.mp hm with h1 | h2
                · cases h1
                · exact hd0 h2
            obtain ⟨sn', hsn'⟩ : ∃ sn', sn = '_' :: sn' := by
              cases hcase : sn with
              | nil => rw [hcase] at hsnhead; cases hsnhead
              | cons a t =>
                rw [hcase] at hsnhead
                simp only [List.head?] at hsnhead
                injection hsnhead with ha
                exact ⟨t, by rw [ha]⟩
            -- the rendered string and its re-split
            rw [ServiceType.toString_eq_joinSep]
            have hjoin : joinSep '.' (sn :: p1 :: rest) =
                sn ++ '.' :: joinSep '.' (p1 :: rest) := rfl
            have hemp2 : (joinSep '.' (sn :: p1 :: rest)).isEmpty = false := by
              rw [hjoin, hsn']
              rfl
            have hurn2 : urnTag.isPrefixOf (joinSep '.' (sn :: p1 :: rest)) = false := by
              rw [hjoin, hsn']
              exact urnTag_not_prefix_of '_' _ (by decide)
            have hsp2 : splitSep '.' (joinSep '.' (sn :: p1 :: rest)) =
                sn :: p1 :: rest := by
              apply splitSep_joinSep
              · simp
              · intro p hp
                rcases List.mem_cons.mp hp with rfl | hp2
                · exact hdsn
                · rcases List.mem_cons.mp hp2 with rfl | hp3
                  · exact hd1
                  · exact hdrest p hp3
            rw [ServiceType.new_split _ sn p1 rest hemp2 hurn2 hsp2 hp1,
              if_pos hsnhead]
          · rw [ServiceType.new_split_bad_proto s p0 p1 rest (by simpa using hemp)
              (Bool.eq_false_iff.mpr hurn) hsp hp1] at h
            cases h

/-- Witness for C5 at the concrete accepted input `_http._tcp`. -/
theorem C5_witness :
    ServiceType.new "_http._tcp".toList =
      some ⟨"_http".toList, "._tcp".toList, none⟩ ∧
    ServiceType.new (ServiceType.toString ⟨"_http".toList, "._tcp".toList, none⟩) =
      some ⟨"_http".toList, "._tcp".toList, none⟩ :=
  ⟨by decide, C5_service_type_roundtrip "_http._tcp".toList _ (by decide)⟩

/-! ### Lemmas about the association-list map -/

theorem mapInsert_length {κ β : Type} [DecidableEq κ] (k : κ) (v : β)
    (m : List (κ × β)) :
    (mapInsert k v m).length =
      if containsKey k m then m.length else m.length + 1 := by
  induction m with
  | nil => simp [mapInsert, containsKey, mapLookup]
  | cons p t ih =>
    by_cases h : p.1 = k
    · simp [mapInsert, containsKey, mapLookup, h]
    · simp only [mapInsert, if_neg h, List.length_cons, containsKey, mapLookup, ih]
      split <;> simp

theorem mapInsert_length_le {κ β : Type} [DecidableEq κ] (k : κ) (v : β)
    (m : List (κ × β)) :
    (mapInsert k v m).length ≤ m.length + 1 := by
  rw [mapInsert_length]
  split <;> omega

theorem mapRemove_length_of_contains {κ β : Type} [DecidableEq κ] (k : κ)
    (m : List (κ × β)) (h : containsKey k m = true) :
    (mapRemove k m).length + 1 = m.length := by
  induction m with
  | nil => simp [containsKey, mapLookup] at h
  | cons p t ih =>
    by_cases hp : p.1 = k
    · simp [mapRemove, hp]
    · have h2 : containsKey k t = true := by
        simpa [containsKey, mapLookup, hp] using h
      simp [mapRemove, hp, ih h2]

theorem containsKey_of_mem {κ β : Type} [DecidableEq κ] (p : κ × β)
    (m : List (κ × β)) (h : p ∈ m) : containsKey p.1 m = true := by
  induction m with
  | nil => cases h
  | cons q t ih =>
    rcases List.mem_cons.mp h with rfl | h2
    · simp [containsKey, mapLookup]
    · by_cases hq : q.1 = p.1
      · simp [containsKey, mapLookup, hq]
      · simpa [containsKey, mapLookup, hq] using ih h2

theorem filter_length_partition {α : Type} (p : α → Bool) (l : List α) :
    (l.filter p).length + (l.filter fun x => !(p x)).length = l.length := by
  induction l with
  | nil => rfl
  | cons a t ih => by_cases h : p a <;> simp [List.filter_cons, h, ← ih] <;> omega

/-- The fold inside `find_oldest_expired` only returns elements of the list or
the initial accumulator. -/
theorem foldl_pick_mem (l : List (Str × ServiceEntry)) :
    ∀ (acc0 : Option (Str × ServiceEntry)) (r : Str × ServiceEntry),
      l.foldl (fun acc p =>
        match acc with
        | none => some p
        | some q => if p.2.timestamp < q.2.timestamp then some p else some q)
        acc0 = some r →
      r ∈ l ∨ acc0 = some r := by
  induction l with
  | nil =>
    intro acc0 r h
    exact Or.inr h
  | cons p t ih =>
    intro acc0 r h
    rw [List.foldl_cons] at h
    rcases ih _ r h with hmem | hacc
    · exact Or.inl (List.mem_cons.mpr (Or.inr hmem))
    · cases acc0 with
      | none =>
        injection hacc with h1
        exact Or.inl (h1 ▸ List.mem_cons_self p t)
      | some q =>
        simp only [] at hacc
        by_cases hg : p.2.timestamp < q.2.timestamp
        · rw [if_pos hg] at hacc
          injection hacc with h1
          exact Or.inl (h1 ▸ List.mem_cons_self p t)
        · rw [if_neg hg] at hacc
          exact Or.inr hacc

/-- The key returned by `find_oldest_expired` is a key of the map. -/
theorem find_oldest_expired_containsKey (now : Nat) (m : RegMap) (k : Str)
    (h : ServiceRegistry.find_oldest_expired now m = some k) :
    containsKey k m = true := by
  unfold ServiceRegistry.find_oldest_expired at h
  rw [Option.map_eq_some'] at h
  obtain ⟨pr, hfold, hk⟩ := h
  rcases foldl_pick_mem _ _ _ hfold with hmem | hacc
  · have : pr ∈ m := List.mem_of_mem_filter hmem
    exact hk ▸ containsKey_of_mem pr m this
  · cases hacc

/-! ### Claim C3 -/

/-- Counterexample to claim C3 as stated: with `max_services = 1` and a full
registry (one discovered entry), `register_local_service` still inserts a
second fresh entry — the registry exceeds `max_services`, so local
registration does not preserve the bound. -/
theorem C3_counterexample :
    regCap1full.max_services = 1 ∧ regCap1full.services.length = 1 ∧
    (ServiceRegistry.register_local_service 1 sampleSvc2 ProtocolType.Mdns
      regCap1full).services.length = 2 := by
  decide

/-- Claim C3 (amended): `add_discovered_service` preserves the bound
`services.length ≤ max_services`: a successful insertion starting from a
bounded registry stays bounded (at capacity the oldest expired entry is
evicted first), and at capacity with no expired entry the call fails with a
`Configuration` error. `register_local_service`, by contrast, inserts with no
capacity check and can exceed the bound (see the counterexample). -/
theorem C3_add_discovered_bound (now : Nat) (svc : ServiceInfo)
    (proto : ProtocolType) (ttl : Option Duration) (reg : ServiceRegistry)
    (hlen : reg.services.length ≤ reg.max_services) :
    (∀ reg', ServiceRegistry.add_discovered_service now svc proto ttl reg = .ok reg' →
      reg'.services.length ≤ reg.max_services ∧
      reg'.max_services = reg.max_services) ∧
    (reg.services.length ≥ reg.max_services →
      ServiceRegistry.find_oldest_expired now reg.services = none →
      ServiceRegistry.add_discovered_service now svc proto ttl reg =
        .error (.Configuration "Service registry at capacity".toList)) := by
  constructor
  · intro reg' hok
    unfold ServiceRegistry.add_discovered_service at hok
    by_cases hcap : reg.services.length ≥ reg.max_services
    · rw [if_pos hcap] at hok
      cases hold : ServiceRegistry.find_oldest_expired now reg.services with
      | none => rw [hold] at hok; cases hok
      | some oldest =>
        rw [hold] at hok
        injection hok with hok
        subst hok
        refine ⟨?_, rfl⟩
        have hkey := find_oldest_expired_containsKey now reg.services oldest hold
        have hrem := mapRemove_length_of_contains oldest reg.services hkey
        have hins := mapInsert_length_le
          (ServiceEntry.new_discovered now svc proto (some (ttl.getD reg.default_ttl))).service_id
          (ServiceEntry.new_discovered now svc proto (some (ttl.getD reg.default_ttl)))
          (mapRemove oldest reg.services)
        simp only []
        omega
    · rw [if_neg hcap] at hok
      injection hok with hok
      subst hok
      refine ⟨?_, rfl⟩
      have hins := mapInsert_length_le
        (ServiceEntry.new_discovered now svc proto (some (ttl.getD reg.default_ttl))).service_id
        (ServiceEntry.new_discovered now svc proto (some (ttl.getD reg.default_ttl)))
        reg.services
      simp only []
      omega
  · intro hcap hnone
    unfold ServiceRegistry.add_discovered_service
    rw [if_pos hcap, hnone]

/-- Witness for C3 at a concrete bounded registry: the insertion that filled
`regCap1` keeps it within its capacity of 1. -/
theorem C3_witness :
    regCap1full.services.length ≤ regCap1.max_services ∧
    regCap1full.max_services = regCap1.max_services :=
  (C3_add_discovered_bound 0 sampleSvc1 ProtocolType.Mdns none regCap1
    (by decide)).1 regCap1full rfl

/-! ### Claim C4 -/

/-- Claim C4: for every filter and registry state, a matching entry is never
expired at evaluation time (so `find_services` never returns a service whose
entry is expired, even before cleanup); `cleanup_expired` retains exactly the
non-expired entries, returns the number of expired entries it removed, and
leaves every `find_services` result unchanged (it only reclaims storage). -/
theorem C4_find_excludes_expired_cleanup_reclaims (now : Nat) :
    (∀ (f : ServiceFilter) (e : ServiceEntry),
      f.matches now e = true → ServiceEntry.is_expired now e = false) ∧
    (∀ reg : ServiceRegistry,
      (ServiceRegistry.cleanup_expired now reg).1.services =
        reg.services.filter (fun p => !(ServiceEntry.is_expired now p.2)) ∧
      (ServiceRegistry.cleanup_expired now reg).2 =
        (reg.services.filter fun p => ServiceEntry.is_expired now p.2).length) ∧
    (∀ (f : ServiceFilter) (reg : ServiceRegistry),
      ServiceRegistry.find_services now f (ServiceRegistry.cleanup_expired now reg).1 =
        ServiceRegistry.find_services now f reg) := by
  have hmatch : ∀ (f : ServiceFilter) (e : ServiceEntry),
      f.matches now e = true → ServiceEntry.is_expired now e = false := by
    intro f e h
    by_cases hex : ServiceEntry.is_expired now e
    · rw [ServiceFilter.matches, if_pos hex] at h
      cases h
    · exact Bool.eq_false_iff.mpr hex
  refine ⟨hmatch, fun reg => ⟨rfl, ?_⟩, fun f reg => ?_⟩
  · have := filter_length_partition
      (fun p : Str × ServiceEntry => ServiceEntry.is_expired now p.2) reg.services
    simp only [ServiceRegistry.cleanup_expired]
    omega
  · simp only [ServiceRegistry.find_services, ServiceRegistry.cleanup_expired,
      List.filter_filter]
    congr 1
    apply List.filter_congr
    intro p _
    by_cases hm : f.matches now p.2
    · rw [hm, hmatch f p.2 hm]
      rfl
    · rw [Bool.eq_false_iff.mpr hm]
      rfl

/-- Witness for C4: a fresh discovered entry with a 60 s TTL matches the empty
filter at time 0 and is indeed not expired. -/
theorem C4_witness :
    ServiceEntry.is_expired 0
      (ServiceEntry.new_discovered 0 sampleSvc1 ProtocolType.Mdns
        (some (Duration.fromSecs 60))) = false :=
  (C4_find_excludes_expired_cleanup_reclaims 0).1 {}
    (ServiceEntry.new_discovered 0 sampleSvc1 ProtocolType.Mdns
      (some (Duration.fromSecs 60))) (by decide)

/-! ### Claim C10 -/

/-- Claim C10: `unregister_local_service` fails with `ServiceNotFound` exactly
when no entry is stored under the key; when an entry exists it is removed and
the call succeeds — for any stored entry, with no `is_local` check. -/
theorem C10_unregister_semantics (reg : ServiceRegistry) (sid : Str) :
    (ServiceRegistry.unregister_local_service sid reg =
        .error (.ServiceNotFound sid) ↔ containsKey sid reg.services = false) ∧
    (containsKey sid reg.services = true →
      ServiceRegistry.unregister_local_service sid reg =
        .ok { reg with services := mapRemove sid reg.services }) := by
  unfold ServiceRegistry.unregister_local_service
  by_cases h : containsKey sid reg.services
  · rw [if_pos h]
    refine ⟨⟨fun hcontra => ?_, fun hfalse => ?_⟩, fun _ => rfl⟩
    · cases hcontra
    · rw [h] at hfalse
      cases hfalse
  · rw [if_neg h]
    exact ⟨⟨fun _ => Bool.eq_false_iff.mpr h, fun _ => rfl⟩,
      fun htrue => absurd htrue h⟩

/-- Witness for C10 on a registry whose only entry under the key is a
discovered (non-local) entry: removal still succeeds. -/
theorem C10_witness :
    ServiceRegistry.unregister_local_service "k1".toList regDisc =
      .ok { regDisc with services := mapRemove "k1".toList regDisc.services } :=
  (C10_unregister_semantics regDisc "k1".toList).2 (by decide)

/-! ### Claim C1 -/

/-- The merge-in loop never drops elements already accumulated. -/
theorem mdnsMergeLocals_acc_mem (types : List ServiceType) :
    ∀ (locals acc : List ServiceInfo) (a : ServiceInfo), a ∈ acc →
      a ∈ mdnsMergeLocals types acc locals := by
  intro locals
  induction locals with
  | nil => intro acc a ha; exact ha
  | cons l rest ih =>
    intro acc a ha
    rw [mdnsMergeLocals]
    split
    · exact ih (acc ++ [l]) a (List.mem_append.mpr (Or.inl ha))
    · exact ih acc a ha

/-- If a type-matching service is among the locals, the only local carrying
its UUID is itself, and no accumulated result carries its UUID, then the
merge-in loop adds it. -/
theorem mdnsMergeLocals_mem (types : List ServiceType) (s : ServiceInfo)
    (hmatch : (types.any fun st => typeMatchesLocal st s.service_type) = true) :
    ∀ (locals acc : List ServiceInfo), s ∈ locals →
      (∀ l ∈ locals, l.id = s.id → l = s) →
      (∀ a ∈ acc, a.id ≠ s.id) →
      s ∈ mdnsMergeLocals types acc locals := by
  intro locals
  induction locals with
  | nil =>
    intro acc hs _ _
    cases hs
  | cons l rest ih =>
    intro acc hs huniq hacc
    by_cases hl : l = s
    · subst hl
      have hnodup : (acc.any fun ds => ds.id == l.id) = false := by
        rw [List.any_eq_false]
        intro a ha
        simp [beq_iff_eq, hacc a ha]
      rw [mdnsMergeLocals, hmatch, hnodup]
      simp only [Bool.and_true, Bool.not_false, if_pos rfl]
      exact mdnsMergeLocals_acc_mem types rest (acc ++ [l]) l
        (List.mem_append.mpr (Or.inr (List.mem_cons_self l [])))
    · have hsrest : s ∈ rest := by
        rcases List.mem_cons.mp hs with h1 | h2
        · exact absurd h1.symm hl
        · exact h2
      have hlid : l.id ≠ s.id := fun hid =>
        hl (huniq l (List.mem_cons_self l rest) hid)
      have huniq2 : ∀ x ∈ rest, x.id = s.id → x = s := fun x hx =>
        huniq x (List.mem_cons.mpr (Or.inr hx))
      rw [mdnsMergeLocals]
      split
      · apply ih (acc ++ [l]) hsrest huniq2
        intro a ha
        rcases List.mem_append.mp ha with h1 | h2
        · exact hacc a h1
        · rw [List.mem_singleton.mp h2]
          exact hlid
      · exact ih acc hsrest huniq2 hacc

/-- A local (no-TTL) entry stored in the registry always appears in
`get_local_services`. -/
theorem mem_get_local_services (now ts : Nat) (reg : ServiceRegistry) (k : Str)
    (s : ServiceInfo) (proto : ProtocolType)
    (hmem : (k, ServiceEntry.new_local ts s proto) ∈ reg.services) :
    s ∈ ServiceRegistry.get_local_services now reg := by
  have hm : ServiceRegistry.localOnlyFilter.matches now
      (ServiceEntry.new_local ts s proto) = true := rfl
  exact List.mem_map.mpr ⟨(k, ServiceEntry.new_local ts s proto),
    List.mem_filter.mpr ⟨hmem, hm⟩, rfl⟩

/-- Counterexample to claim C1 as stated (quantifying over every engine,
including SSDP): after a successful SSDP `register_service` (the first
conjunct shows the state update), an SSDP `discover_services` call that
receives no datagrams returns the empty list — the SSDP engine's discover has
no registry merge-in and never consults its registered-services table, so the
registered service's `(name, port)` is not in the result set. -/
theorem C1_counterexample :
    ssdpRegisterService sampleSvc1 [] = [(sampleSvc1.id, sampleSvc1)] ∧
    ssdpDiscoverServices [] [sampleType1] (some (Duration.fromSecs 1)) = [] := by
  constructor
  · rfl
  · rfl

/-- Claim C1 (amended): the register-then-discover guarantee holds for the
mDNS engine via the registry merge-in step: if the service's local entry is in
the engine's registry (as left there by `register_service`, with no
intervening unregister), some requested type matches it (modulo `.local.`
normalization), and its UUID is distinct from the UUIDs of the network browse
results and of any other registry entry (Rust UUIDs are fresh v4 values), then
the discover result contains an entry with its `name` and `port`. The SSDP
engine offers no such guarantee (see the counterexample). -/
theorem C1_mdns_register_then_discover
    (netServices : List ServiceInfo) (types : List ServiceType) (now ts : Nat)
    (reg : ServiceRegistry) (k : Str) (s : ServiceInfo) (proto : ProtocolType)
    (hreg : (k, ServiceEntry.new_local ts s proto) ∈ reg.services)
    (hmatch : (types.any fun st => typeMatchesLocal st s.service_type) = true)
    (hnet : ∀ n ∈ netServices, n.id ≠ s.id)
    (huniq : ∀ p ∈ reg.services, p.2.service.id = s.id → p.2.service = s) :
    ∃ r ∈ mdnsDiscoverServices netServices types now reg,
      r.name = s.name ∧ r.port = s.port := by
  refine ⟨s, ?_, rfl, rfl⟩
  apply mdnsMergeLocals_mem types s hmatch _ _
    (mem_get_local_services now ts reg k s proto hreg) _ hnet
  intro l hl
  obtain ⟨p, hp, hps⟩ := List.mem_map.mp hl
  intro hid
  rw [← hps] at hid ⊢
  exact huniq p (List.mem_of_mem_filter hp) hid

/-- Witness for C1 on the mDNS engine: register `sampleSvc1` into a fresh
registry, then discover with its own type and no network results. -/
theorem C1_witness :
    ∃ r ∈ mdnsDiscoverServices [] [sampleType1] 0
        (mdnsRegisterService 0 sampleSvc1 ServiceRegistry.new),
      r.name = sampleSvc1.name ∧ r.port = sampleSvc1.port :=
  C1_mdns_register_then_discover [] [sampleType1] 0 0
    (mdnsRegisterService 0 sampleSvc1 ServiceRegistry.new)
    (ServiceEntry.new_local 0 sampleSvc1 ProtocolType.Mdns).service_id
    sampleSvc1 ProtocolType.Mdns (by decide) (by decide)
    (by intro n hn; cases hn) (by decide)

/-! ### Claim C2 -/

/-- Claim C2 (code bug in the SSDP decode path): a well-formed M-SEARCH
response decodes to a `ServiceInfo` whose `address` and `port` are the
datagram's source IP and port as claimed, but whose `protocol_type` is `Mdns`
— `ServiceInfo::new` fills the default `Mdns` tag and
`parse_service_from_response` never overrides it with `Upnp`. -/
theorem C2_ssdp_parse_protocol_type :
    (parse_service_from_response 5 ssdpRespLines sampleAddr).map (·.protocol_type) =
      some ProtocolType.Mdns ∧
    (parse_service_from_response 5 ssdpRespLines sampleAddr).map (·.address) =
      some sampleAddr.ip ∧
    (parse_service_from_response 5 ssdpRespLines sampleAddr).map (·.port) =
      some sampleAddr.port ∧
    ProtocolType.Mdns ≠ ProtocolType.Upnp := by
  decide

/-! ### Claim C6 -/

/-- When no line carries the literal `LOCATION:` prefix, the scan leaves the
location accumulator unchanged. -/
theorem scanResponse_fst_none (lines : List Str)
    (h : ∀ l ∈ lines, locationHdr.isPrefixOf l = false) :
    ∀ acc, (scanResponse lines acc).1 = acc.1 := by
  induction lines with
  | nil => intro acc; rfl
  | cons line rest ih =>
    intro acc
    have hrest : ∀ l ∈ rest, locationHdr.isPrefixOf l = false :=
      fun l hl => h l (List.mem_cons.mpr (Or.inr hl))
    have hdl : dropPre locationHdr line = none := by
      simp [dropPre, h line (List.mem_cons_self line rest)]
    rw [scanResponse, hdl]
    cases hd : dropPre usnHdr line with
    | some v => exact ih hrest (acc.1, some (trimStr v))
    | none => exact ih hrest acc

/-- When no line carries the literal `USN:` prefix, the scan leaves the USN
accumulator unchanged. -/
theorem scanResponse_snd_none (lines : List Str)
    (h : ∀ l ∈ lines, usnHdr.isPrefixOf l = false) :
    ∀ acc, (scanResponse lines acc).2 = acc.2 := by
  induction lines with
  | nil => intro acc; rfl
  | cons line rest ih =>
    intro acc
    have hrest : ∀ l ∈ rest, usnHdr.isPrefixOf l = false :=
      fun l hl => h l (List.mem_cons.mpr (Or.inr hl))
    have hdu : dropPre usnHdr line = none := by
      simp [dropPre, h line (List.mem_cons_self line rest)]
    rw [scanResponse]
    cases hd : dropPre locationHdr line with
    | some v => exact ih hrest (some (trimStr v), acc.2)
    | none =>
      rw [hdu]
      exact ih hrest acc

/-- Counterexample to claim C6 as stated: a lower-case `st:` header is not
matched (matching is case-sensitive, not case-insensitive), and the resulting
ST-less M-SEARCH is given the default target `ssdp:all` instead of being
ignored; likewise a response whose headers are lower-case parses to nothing. -/
theorem C6_counterexample :
    parse_search_target [("st: upnp:rootdevice".toList)] = "ssdp:all".toList ∧
    parse_service_from_response 7
      [("location: http://192.0.2.1/".toList), ("usn: uuid:x".toList)]
      sampleAddr = none := by
  decide

/-- Claim C6 (amended): SSDP header matching is case-sensitive on the literal
prefixes `LOCATION:`, `USN:` and `ST:`; header values are whitespace-trimmed;
a response missing either mandatory header is ignored (parses to `none`, not
an error); and an M-SEARCH with no (case-sensitively matched) `ST:` line is
not ignored but given the default search target `ssdp:all`. -/
theorem C6_parser_policy :
    (∀ (uuid : Nat) (lines : List Str) (addr : SocketAddr),
      (∀ l ∈ lines, locationHdr.isPrefixOf l = false) →
      parse_service_from_response uuid lines addr = none) ∧
    (∀ (uuid : Nat) (lines : List Str) (addr : SocketAddr),
      (∀ l ∈ lines, usnHdr.isPrefixOf l = false) →
      parse_service_from_response uuid lines addr = none) ∧
    (∀ lines : List Str, (∀ l ∈ lines, stHdr.isPrefixOf l = false) →
      parse_search_target lines = "ssdp:all".toList) ∧
    (∀ (v : Str) (rest : List Str),
      parse_search_target ((stHdr ++ v) :: rest) = trimStr v) := by
  refine ⟨?_, ?_, ?_, ?_⟩
  · intro uuid lines addr h
    unfold parse_service_from_response
    have h1 := scanResponse_fst_none lines h (none, none)
    cases hscan : scanResponse lines (none, none) with
    | mk a b =>
      rw [hscan] at h1
      simp only [] at h1
      subst h1
      cases b <;> rfl
  · intro uuid lines addr h
    unfold parse_service_from_response
    have h2 := scanResponse_snd_none lines h (none, none)
    cases hscan : scanResponse lines (none, none) with
    | mk a b =>
      rw [hscan] at h2
      simp only [] at h2
      subst h2
      cases a <;> rfl
  · intro lines h
    induction lines with
    | nil => rfl
    | cons line rest ih =>
      have hdl : dropPre stHdr line = none := by
        simp [dropPre, h line (List.mem_cons_self line rest)]
      rw [parse_search_target, hdl]
      exact ih (fun l hl => h l (List.mem_cons.mpr (Or.inr hl)))
  · intro v rest
    have hpre : stHdr.isPrefixOf (stHdr ++ v) = true := by
      rw [List.isPrefixOf_iff_prefix]
      exact List.prefix_append stHdr v
    have hdl : dropPre stHdr (stHdr ++ v) = some v := by
      simp [dropPre, hpre]
    rw [parse_search_target, hdl]

/-- Witness for C6: an M-SEARCH message with no ST line gets the default
search target. -/
theorem C6_witness :
    parse_search_target [("M-SEARCH * HTTP/1.1".toList)] = "ssdp:all".toList :=
  C6_parser_policy.2.2.1 [("M-SEARCH * HTTP/1.1".toList)] (by decide)

/-! ### Claim C7 -/

/-- Counterexample to claim C7 as stated: for a discovery call with a 10 s
total timeout, the transmitted MX value is 10, not `min(10, 5) = 5`; the
M-SEARCH message carries the line `MX: 10`. -/
theorem C7_counterexample :
    ssdpMx (some (Duration.fromSecs 10)) = 10 ∧ min 10 5 = 5 ∧ (10 : Nat) ≠ 5 ∧
    "MX: 10".toList ∈
      mSearchLines ("_x._tcp".toList) (ssdpMx (some (Duration.fromSecs 10))) := by
  decide

/-- Claim C7 (amended): the M-SEARCH MX header equals the whole capped total
timeout in seconds, `min(t, 30)` — not `min(t, 5)`; with no caller-supplied
timeout the SSDP total timeout defaults to 10 seconds and is capped at 30. -/
theorem C7_mx_is_capped_timeout :
    (∀ t : Nat, ssdpMx (some (Duration.fromSecs t)) = min t 30) ∧
    ssdpMx none = 10 ∧
    (∀ d : Duration, ssdpTimeoutDuration (some d) =
      Duration.minD d (Duration.fromSecs 30)) ∧
    (∀ (st : Str) (t : Nat),
      "MX: ".toList ++ Nat.toDigits 10 t ∈ mSearchLines st t) := by
  refine ⟨?_, rfl, fun d => rfl, ?_⟩
  · intro t
    rcases le_or_lt t 30 with h | h
    · have h30 : ¬(30 < t) := by omega
      simp [ssdpMx, ssdpTimeoutDuration, Duration.minD, Duration.blt,
        Duration.fromSecs, Duration.asSecs, h30, Nat.min_eq_left h]
    · have h30 : 30 < t := h
      simp [ssdpMx, ssdpTimeoutDuration, Duration.minD, Duration.blt,
        Duration.fromSecs, Duration.asSecs, h30, Nat.min_eq_right (Nat.le_of_lt h)]
  · intro st t
    simp [mSearchLines]

/-! ### Claim C8 -/

/-- Counterexample to claim C8 as stated: `ProtocolType` has exactly three
inhabitants — the distinct constructors `Mdns`, `DnsSd`, `Upnp` — so there is
no additional `Any` sentinel anywhere in the type, and no `Any` resolution can
exist on the register path. -/
theorem C8_counterexample :
    Fintype.card ProtocolType = 3 ∧
    ProtocolType.Mdns ≠ ProtocolType.DnsSd ∧
    ProtocolType.Mdns ≠ ProtocolType.Upnp ∧
    ProtocolType.DnsSd ≠ ProtocolType.Upnp := by
  decide

/-- Claim C8 (amended): `ProtocolType` is the tagged variant `Mdns`, `DnsSd`,
`Upnp` with default `Mdns` and no `Any` sentinel; the manager's register
dispatches to exactly the engine whose type equals `service.protocol_type`,
and fails with a `Protocol` error when that engine is absent. -/
theorem C8_register_dispatch (table : EngineTable) (svc : ServiceInfo) :
    (∀ e : Nat, managerRegisterService table svc = .ok e ↔
      mapLookup svc.protocol_type table = some e) ∧
    (mapLookup svc.protocol_type table = none →
      managerRegisterService table svc =
        .error (.Protocol ("Protocol ".toList ++ svc.protocol_type.debugStr ++
          " not available".toList))) ∧
    ProtocolType.default = ProtocolType.Mdns := by
  refine ⟨?_, ?_, rfl⟩
  · intro e
    unfold managerRegisterService
    cases h : mapLookup svc.protocol_type table with
    | some x => simp
    | none => simp
  · intro h
    unfold managerRegisterService
    rw [h]

/-- Witness for C8: with only an mDNS engine present, registering an
mDNS-tagged service dispatches to it. -/
theorem C8_witness :
    managerRegisterService [(ProtocolType.Mdns, 0)] sampleSvc1 = .ok 0 :=
  ((C8_register_dispatch [(ProtocolType.Mdns, 0)] sampleSvc1).1 0).mpr (by decide)

/-! ### Claim C9 -/

/-- Counterexample to claim C9 as stated: a 500 ms timeout is greater than
zero, IPv4 is enabled and the protocol set is non-empty, yet `validate`
rejects the configuration — the check requires the timeout's whole-second
count to be non-zero, not the timeout itself. -/
theorem C9_counterexample :
    cfg500.validate =
      .error (.Configuration "Timeout must be greater than 0".toList) ∧
    Duration.isZero (Duration.fromMillis 500) = false ∧
    cfg500.enable_ipv4 = true ∧
    cfg500.enabled_protocols.isEmpty = false := by
  refine ⟨rfl, by decide, rfl, rfl⟩

/-- Claim C9 (amended): `validate` succeeds exactly when any configured
timeout has a non-zero whole-second count (sub-second positive timeouts are
rejected; an absent timeout passes), at least one IP version is enabled, and
the protocol set is non-empty; every failure is a `Configuration` error. -/
theorem C9_validate_iff (c : DiscoveryConfig) :
    (c.validate = .ok () ↔
      ((c.timeout.any fun t => t.asSecs == 0) = false ∧
        (c.enable_ipv4 || c.enable_ipv6) = true ∧
        c.enabled_protocols.isEmpty = false)) ∧
    (c.validate = .ok () ∨
      ∃ msg : Str, c.validate = .error (.Configuration msg)) := by
  rcases Bool.eq_false_or_eq_true (c.timeout.any fun t => t.asSecs == 0) with h1 | h1 <;>
  rcases Bool.eq_false_or_eq_true c.enable_ipv4 with h2 | h2 <;>
  rcases Bool.eq_false_or_eq_true c.enable_ipv6 with h3 | h3 <;>
  rcases Bool.eq_false_or_eq_true c.enabled_protocols.isEmpty with h4 | h4 <;>
    simp [DiscoveryConfig.validate, h1, h2, h3, h4]

/-- Witness for C9: the default configuration (30 s timeout, IPv4 on, mDNS
enabled) validates. -/
theorem C9_witness : DiscoveryConfig.defaultConfig.validate = .ok () :=
  (C9_validate_iff DiscoveryConfig.defaultConfig).1.mpr (by decide)

end AutoDiscovery
